import Mathlib

/-!
# go-json2srt: a verification development

A shallow embedding of `main.go` (package `main` of go-json2srt) and the
properties of its two conversions and of its format dispatch.

Conventions of the embedding

* Go `string` values are `String`s (valid UTF-8 only); file contents are byte lists.
* Go `error` values are their messages; a function returning `error` returns
  `Option Error` (`none` is `nil`).
* `float64` values are the rationals they denote, every arithmetic result being
  rounded to binary64 (round to nearest, ties to even). Infinities and NaN are
  outside the model.
* `time.Duration` is an `Int` count of nanoseconds.
* The JSON codec (`encoding/json`) and the subtitle reader and writer (`astisub`)
  are libraries outside the repository: the conversions take them as parameters.
-/

namespace Json2Srt

/-! ## binary64 arithmetic -/

/-- A finite binary64 value, represented by the rational number it denotes. -/
abbrev Float64 := ℚ

/-- Nearest integer to `x`, a tie going to the even neighbour. -/
def roundHalfEven (x : ℚ) : ℤ :=
  let f := ⌊x⌋
  let r := x - f
  if r < 1 / 2 then f
  else if 1 / 2 < r then f + 1
  else if f % 2 = 0 then f else f + 1

/-- Binary exponent of the binade of `q`, not below the least normal exponent. -/
def binade (q : ℚ) : ℤ := max (Int.log 2 |q|) (-1022)

/-- Spacing of binary64 values in the binade of `q` (53 significant bits). -/
def ulp (q : ℚ) : ℚ := 2 ^ (binade q - 52)

/-- Rounding of a real result to binary64: nearest value, ties to even. Results
of magnitude `2^1024` or more (infinities in Go) are outside the model. -/
def roundNE (q : ℚ) : Float64 := roundHalfEven (q / ulp q) * ulp q

/-- Go `a * b` on `float64`. -/
def Float64.mul (a b : Float64) : Float64 := roundNE (a * b)

/-- Go `a + b` on `float64`. -/
def Float64.add (a b : Float64) : Float64 := roundNE (a + b)

/-- Go `a / b` on `float64` (for `b ≠ 0`). -/
def Float64.div (a b : Float64) : Float64 := roundNE (a / b)

/-- Go `float64(n)` for an integer `n`. -/
def float64 (n : Int) : Float64 := roundNE n

/-- Go conversion of a `float64` to `int64`: the fraction is discarded (truncation
towards zero). Values outside the `int64` range are implementation-specific in Go
and are outside the model. -/
def truncToInt (x : Float64) : Int := if 0 ≤ x then ⌊x⌋ else ⌈x⌉

/-! ## `time.Duration` -/

/-- Go `time.Duration`: nanoseconds. -/
abbrev Duration := Int

/-- Go `time.Millisecond`. -/
def Millisecond : Duration := 1000000

/-- Go `time.Second`. -/
def Second : Duration := 1000000000

/-- Go `time.Minute`. -/
def Minute : Duration := 60 * Second

/-- Go `time.Hour`. -/
def Hour : Duration := 60 * Minute

/-- Go `time.Duration(f * float64(time.Second))` for a `float64` number of seconds `f`,
as in lines 69 and 71 of `main.go`. -/
def secondsToDuration (f : Float64) : Duration :=
  truncToInt (Float64.mul f (float64 Second))

/-- Go `(time.Duration).Seconds`:
`sec := d / Second; nsec := d % Second; return float64(sec) + float64(nsec)/1e9`
(integer division truncates towards zero). -/
def Duration.Seconds (d : Duration) : Float64 :=
  let sec := Int.tdiv d Second
  let nsec := Int.tmod d Second
  Float64.add (float64 sec) (Float64.div (float64 nsec) (roundNE 1000000000))

/-! ## Data model -/

/-- The `JsonSubBody` struct: json subtitle body. -/
structure JsonSubBody where
  From : Float64
  To : Float64
  Location : Int
  Content : String
  deriving DecidableEq

/-- The `JsonSub` struct: json subtitle. -/
structure JsonSub where
  FontSize : Float64
  FontColor : String
  BackgroundAlpha : Float64
  BackgroundColor : String
  Stroke : String
  Body : List JsonSubBody
  deriving DecidableEq

/-- The `astisub.LineItem` struct: one text segment of a line. Only the field the
program reads or sets is kept; the style fields stay at their zero values. -/
structure LineItem where
  Text : String
  deriving DecidableEq

/-- The `astisub.Line` struct: one display line, a sequence of segments. -/
structure Line where
  Items : List LineItem
  deriving DecidableEq

/-- The `astisub.Item` struct: one cue. -/
structure Item where
  Index : Int
  EndAt : Duration
  Lines : List Line
  StartAt : Duration
  deriving DecidableEq

/-- The `astisub.Subtitles` struct, as returned by `astisub.NewSubtitles` and
`astisub.OpenFile`: the cue list. -/
structure Subtitles where
  Items : List Item
  deriving DecidableEq

/-! ## JSON to SRT: the cue-building loop (lines 41 to 78) -/

/-- Body of the `for _, value := range body` loop: the item built from `value`
when the counter is `index` (lines 53 to 72). -/
def json2srtItem (index : Int) (value : JsonSubBody) : Item :=
  let content := value.Content
  let line : List Line := [{ Items := [{ Text := content }] }]
  { Index := index
    EndAt := secondsToDuration value.To
    Lines := line
    StartAt := secondsToDuration value.From }

/-- The loop of lines 52 to 76, on the state `(items, index)`. The counter is a Go
`int`; it cannot overflow on a slice that fits in memory. -/
def json2srtLoop : List JsonSubBody → List Item × Int → List Item × Int
  | [], st => st
  | value :: rest, (items, index) =>
    json2srtLoop rest (items ++ [json2srtItem index value], index + 1)

/-- Lines 41 to 78: the items assigned to `newSub.Items` for a decoded document. -/
def json2srtItems (subtitle : JsonSub) : List Item :=
  (json2srtLoop subtitle.Body ([], 1)).1

/-! ## SRT or ASS to JSON: the entry-building loop (lines 94 to 117) -/

/-- Go `strings.Join(elems, sep)`. -/
def Join (elems : List String) (sep : String) : String := sep.intercalate elems

/-- The inner loop `for _, lineItem := range line.Items` (lines 106 to 108), on the
slice `lines`. -/
def any2jsonLineItems : List LineItem → List String → List String
  | [], lines => lines
  | lineItem :: rest, lines => any2jsonLineItems rest (lines ++ [lineItem.Text])

/-- The loop `for _, line := range item.Lines` (lines 105 to 109), on the slice `lines`. -/
def any2jsonLines : List Line → List String → List String
  | [], lines => lines
  | line :: rest, lines => any2jsonLines rest (any2jsonLineItems line.Items lines)

/-- Body of the loop over `sub.Items`: the entry appended for `item` (lines 102 to 116). -/
def any2jsonEntry (item : Item) : JsonSubBody :=
  let lines := any2jsonLines item.Lines []
  let newLine := Join lines "\n"
  { From := item.StartAt.Seconds
    To := item.EndAt.Seconds
    Location := 2
    Content := newLine }

/-- The loop of lines 101 to 117, on `jsonSubtitle`. -/
def any2jsonLoop : List Item → JsonSub → JsonSub
  | [], jsonSubtitle => jsonSubtitle
  | item :: rest, jsonSubtitle =>
    any2jsonLoop rest { jsonSubtitle with Body := jsonSubtitle.Body ++ [any2jsonEntry item] }

/-- Lines 94 to 117: the document handed to `json.Marshal` for parsed subtitles `sub`.
The float constants `0.4` and `0.5` are the binary64 values nearest to them. -/
def any2jsonDoc (sub : Subtitles) : JsonSub :=
  any2jsonLoop sub.Items
    { FontSize := roundNE (4 / 10)
      FontColor := "#FFFFFF"
      BackgroundAlpha := roundNE (5 / 10)
      BackgroundColor := "#9C27B0"
      Stroke := "none"
      Body := [] }

/-! ## Files -/

/-- Go `error`, identified with its message. -/
abbrev Error := String

/-- File contents. -/
abbrev Bytes := List UInt8

/-- What a path names. -/
inductive Node where
  | file (data : Bytes)
  | dir
  deriving DecidableEq

/-- The file system: what each path names, if anything. -/
abbrev FileSystem := String → Option Node

/-- The file system with `name` naming a regular file holding `data`. -/
def FileSystem.put (fs : FileSystem) (name : String) (data : Bytes) : FileSystem :=
  fun p => if p = name then some (Node.file data) else fs p

/-- The `os.OpenFile` flags the program uses. -/
inductive Flag where
  | O_WRONLY
  | O_CREATE
  | O_TRUNC
  deriving DecidableEq

/-- An open `*os.File`: its path and its write offset. -/
structure File where
  name : String
  offset : Nat
  deriving DecidableEq

/-- Go `os.ReadFile`. -/
def ReadFile (fs : FileSystem) (name : String) : Except Error Bytes :=
  match fs name with
  | some (Node.file data) => .ok data
  | some Node.dir => .error ("read " ++ name ++ ": is a directory")
  | none => .error ("open " ++ name ++ ": no such file or directory")

/-- Go `os.OpenFile(name, flag, perm)` for writing: an absent file is created
(empty) only under `O_CREATE`; an existing file keeps its contents unless `O_TRUNC`
is given; the offset starts at 0. -/
def OpenFile (fs : FileSystem) (name : String) (flag : List Flag) :
    Except Error File × FileSystem :=
  match fs name with
  | some (Node.file _) =>
    if Flag.O_TRUNC ∈ flag then (.ok ⟨name, 0⟩, fs.put name [])
    else (.ok ⟨name, 0⟩, fs)
  | some Node.dir => (.error ("open " ++ name ++ ": is a directory"), fs)
  | none =>
    if Flag.O_CREATE ∈ flag then (.ok ⟨name, 0⟩, fs.put name [])
    else (.error ("open " ++ name ++ ": no such file or directory"), fs)

/-- Contents of a file after writing `b` at offset `off` (no `O_APPEND`): the bytes
under the written range are replaced, the others stay. -/
def writeAt (old : Bytes) (off : Nat) (b : Bytes) : Bytes :=
  old.take off ++ b ++ old.drop (off + b.length)

/-- Go `(*os.File).Write`. -/
def File.Write (fs : FileSystem) (f : File) (b : Bytes) : Option Error × FileSystem :=
  match fs f.name with
  | some (Node.file old) => (none, fs.put f.name (writeAt old f.offset b))
  | _ => (some ("write " ++ f.name ++ ": bad file descriptor"), fs)

/-- Go `os.WriteFile`: `OpenFile(name, O_WRONLY|O_CREATE|O_TRUNC, perm)`, one `Write`,
`Close`. -/
def WriteFile (fs : FileSystem) (name : String) (data : Bytes) : Option Error × FileSystem :=
  match OpenFile fs name [Flag.O_WRONLY, Flag.O_CREATE, Flag.O_TRUNC] with
  | (.error err, fs1) => (some err, fs1)
  | (.ok f, fs1) => File.Write fs1 f data

/-! ## The two conversions -/

/-- The function `json2srt` (lines 33 to 86): converts json subtitle into srt subtitle.
`Unmarshal` is `json.Unmarshal` into a `JsonSub`; `WriteToSRT` gives the bytes
`(astisub.Subtitles).WriteToSRT` sends to its writer, or its error. -/
def json2srt (Unmarshal : Bytes → Except Error JsonSub)
    (WriteToSRT : Subtitles → Except Error Bytes)
    (inputPath outputPath : String) (fs : FileSystem) : Option Error × FileSystem :=
  match ReadFile fs inputPath with
  | .error err => (some err, fs)
  | .ok data =>
    match Unmarshal data with
    | .error err => (some err, fs)
    | .ok subtitle =>
      let newSub : Subtitles := { Items := json2srtItems subtitle }
      match OpenFile fs outputPath [Flag.O_CREATE, Flag.O_WRONLY] with
      | (.error err, fs1) => (some err, fs1)
      | (.ok f, fs1) =>
        match WriteToSRT newSub with
        | .error err => (some err, fs1)
        | .ok c => File.Write fs1 f c

/-- The function `any2json` (lines 89 to 125): converts srt subtitle into json subtitle.
`Parse` is the parsing `astisub.OpenFile` does on the file's path and contents;
`Marshal` is `json.Marshal` of a `JsonSub`. -/
def any2json (Parse : String → Bytes → Except Error Subtitles)
    (Marshal : JsonSub → Except Error Bytes)
    (inputPath outputPath : String) (fs : FileSystem) : Option Error × FileSystem :=
  match ReadFile fs inputPath with
  | .error err => (some err, fs)
  | .ok input =>
    match Parse inputPath input with
    | .error err => (some err, fs)
    | .ok sub =>
      match Marshal (any2jsonDoc sub) with
      | .error err => (some err, fs)
      | .ok data => WriteFile fs outputPath data

/-! ## Format dispatch -/

/-- Go `os.IsPathSeparator` (Unix). -/
def IsPathSeparator (c : Char) : Bool := c = '/'

/-- The scan of `filepath.Ext` from the end of the path: `rev` is what is left to
scan, last character first, and `acc` what was scanned. -/
def extScan : List Char → List Char → List Char
  | [], _ => []
  | c :: rev, acc =>
    if IsPathSeparator c then []
    else if c = '.' then c :: acc
    else extScan rev (c :: acc)

/-- Go `filepath.Ext`: the suffix beginning at the final dot in the final element of
`path`, empty if there is no dot. -/
def Ext (path : String) : String := ⟨extScan path.data.reverse []⟩

/-- Go `unicode.ToLower`: ASCII is handled inline, other runes by the Unicode case
table `lowerTable`. -/
def toLowerRune (lowerTable : Char → Char) (r : Char) : Char :=
  if r.toNat ≤ 127 then
    if 'A'.toNat ≤ r.toNat ∧ r.toNat ≤ 'Z'.toNat then Char.ofNat (r.toNat + 32) else r
  else lowerTable r

/-- Go `strings.ToLower`. -/
def ToLower (lowerTable : Char → Char) (s : String) : String :=
  ⟨s.data.map (toLowerRune lowerTable)⟩

/-- A conversion as the dispatch sees it: from the two paths and the state of the
system to an error or `nil` and the new state. -/
abbrev Conversion (σ : Type) := String → String → σ → Option Error × σ

/-- The function `processJsonSub` (lines 128 to 136): process json subtitle. The
conversion it calls is the parameter `json2srt`. -/
def processJsonSub {σ : Type} (lowerTable : Char → Char) (json2srt : Conversion σ)
    (inputPath outputPath : String) (s : σ) : Option Error × σ :=
  let outputExt := ToLower lowerTable (Ext outputPath)
  if outputExt = ".srt" then json2srt inputPath outputPath s
  else (some ("\"" ++ outputExt ++ "\" file type is not supported"), s)

/-- The function `processSrtSub` (lines 139 to 147): process srt subtitle. The
conversion it calls is the parameter `any2json`. -/
def processSrtSub {σ : Type} (lowerTable : Char → Char) (any2json : Conversion σ)
    (inputPath outputPath : String) (s : σ) : Option Error × σ :=
  let outputExt := ToLower lowerTable (Ext outputPath)
  if outputExt = ".json" then any2json inputPath outputPath s
  else (some ("\"" ++ outputExt ++ "\" file type is not supported"), s)

/-- The system state of a run and what was printed to standard output. -/
structure World (σ : Type) where
  sys : σ
  stdout : String

/-- Go `fmt.Println(err)` and the `return` after it, for the `err` of a conversion. -/
def report {σ : Type} (stdout : String) : Option Error × σ → World σ
  | (some err, s) => ⟨s, stdout ++ err ++ "\n"⟩
  | (none, s) => ⟨s, stdout⟩

/-- The function `main` (lines 149 to 175) on the arguments `os.Args[1:]`, with the
two conversions as parameters. -/
def main {σ : Type} (lowerTable : Char → Char) (json2srt any2json : Conversion σ)
    (arguments : List String) (w : World σ) : World σ :=
  let argsLen := arguments.length
  match arguments with
  | [inputPath, outputPath] =>
    let inputExt := ToLower lowerTable (Ext inputPath)
    if inputExt = ".json" then
      report w.stdout (processJsonSub lowerTable json2srt inputPath outputPath w.sys)
    else if inputExt = ".srt" ∨ inputExt = ".ass" then
      report w.stdout (processSrtSub lowerTable any2json inputPath outputPath w.sys)
    else ⟨w.sys, w.stdout ++ "\"" ++ inputExt ++ "\" file type is not supported\n"⟩
  | _ =>
    ⟨w.sys, w.stdout ++ "Expected 2 arguments, but only found " ++ toString argsLen ++
      "\nExample: convert input.json output.srt\n"⟩

/-- The libraries the program is linked with. -/
structure Libraries where
  lowerTable : Char → Char
  Unmarshal : Bytes → Except Error JsonSub
  Marshal : JsonSub → Except Error Bytes
  Parse : String → Bytes → Except Error Subtitles
  WriteToSRT : Subtitles → Except Error Bytes

/-- The program: `main` calling `json2srt` and `any2json` on the file system. -/
def program (L : Libraries) (arguments : List String) (w : World FileSystem) :
    World FileSystem :=
  main L.lowerTable (json2srt L.Unmarshal L.WriteToSRT) (any2json L.Parse L.Marshal)
    arguments w

/-! ## The vocabulary of the statements -/

/-- The items the loop appends when the counter starts at `index`. -/
def itemsFrom : Int → List JsonSubBody → List Item
  | _, [] => []
  | index, value :: rest => json2srtItem index value :: itemsFrom (index + 1) rest

/-- The content the specification describes for a cue: one string per display line,
the texts of the line's segments concatenated with no separator, the strings joined
with newlines. -/
def lineWiseContent (item : Item) : String :=
  Join (item.Lines.map (fun line => String.join (line.Items.map LineItem.Text))) "\n"

/-- The two conversions. -/
inductive Op where
  | json2srt
  | any2json
  deriving DecidableEq

/-- A conversion that does nothing but record that it was invoked, and on which paths. -/
def recordCall (op : Op) : Conversion (List (Op × String × String)) :=
  fun inputPath outputPath calls => (none, calls ++ [(op, inputPath, outputPath)])

/-- The dispatch of `main` on its own: the conversions invoked and the text printed,
for an input and an output path. -/
def dispatch (lowerTable : Char → Char) (inputPath outputPath : String) :
    World (List (Op × String × String)) :=
  main lowerTable (recordCall Op.json2srt) (recordCall Op.any2json)
    [inputPath, outputPath] ⟨[], ""⟩

/-- The message printed for an extension that is not supported. -/
def notSupported (ext : String) : String := "\"" ++ ext ++ "\" file type is not supported\n"

/-- The extension pairs that are not supported: input `.json` with an output other
than `.srt`, input `.srt` or `.ass` with an output other than `.json`, and any other
input (extensions lower-cased). -/
def unsupportedPair (lowerTable : Char → Char) (inputPath outputPath : String) : Prop :=
  (ToLower lowerTable (Ext inputPath) = ".json" ∧ ToLower lowerTable (Ext outputPath) ≠ ".srt") ∨
  ((ToLower lowerTable (Ext inputPath) = ".srt" ∨ ToLower lowerTable (Ext inputPath) = ".ass") ∧
    ToLower lowerTable (Ext outputPath) ≠ ".json") ∨
  (ToLower lowerTable (Ext inputPath) ≠ ".json" ∧ ToLower lowerTable (Ext inputPath) ≠ ".srt" ∧
    ToLower lowerTable (Ext inputPath) ≠ ".ass")

/-- The extension the failure message names: the input one when the input kind is
not recognised, otherwise the output one. -/
def offendingExt (lowerTable : Char → Char) (inputPath outputPath : String) : String :=
  if ToLower lowerTable (Ext inputPath) = ".json" ∨ ToLower lowerTable (Ext inputPath) = ".srt" ∨
      ToLower lowerTable (Ext inputPath) = ".ass" then
    ToLower lowerTable (Ext outputPath)
  else ToLower lowerTable (Ext inputPath)

/-- Equal characters, or the upper and the lower case of one ASCII letter, or two
characters outside ASCII that the case table `lowerTable` sends to one lower case. -/
def sameLetter (lowerTable : Char → Char) (a b : Char) : Prop :=
  a = b ∨
  ('A'.toNat ≤ a.toNat ∧ a.toNat ≤ 'Z'.toNat ∧ b.toNat = a.toNat + 32) ∨
  ('A'.toNat ≤ b.toNat ∧ b.toNat ≤ 'Z'.toNat ∧ a.toNat = b.toNat + 32) ∨
  (127 < a.toNat ∧ 127 < b.toNat ∧ lowerTable a = lowerTable b)

/-- Two strings that differ at most in the case of their letters. -/
def caseVariant (lowerTable : Char → Char) (s t : String) : Prop :=
  List.Forall₂ (sameLetter lowerTable) s.data t.data

/-! ## The SRT writer -/

/-- UTF-8 encoding of a text. -/
def utf8 (s : String) : Bytes := s.data.flatMap String.utf8EncodeChar

/-- Modelled from the spec: a number in decimal, zero-padded to `width` digits, as the
fields of `HH:MM:SS,mmm` are (the SRT writer is part of the astisub library, whose
source is not in the repository). -/
def pad (width n : Nat) : String :=
  String.mk (List.replicate (width - (toString n).length) '0') ++ toString n

/-- Modelled from the spec: the time format `HH:MM:SS,mmm` of the SRT writer (part of
the astisub library, whose source is not in the repository), for a duration that is
not negative; what is below a millisecond is dropped. -/
def formatDurationSRT (d : Duration) : String :=
  let n := d.toNat
  pad 2 (n / 3600000000000) ++ ":" ++ pad 2 (n % 3600000000000 / 60000000000) ++ ":" ++
    pad 2 (n % 60000000000 / 1000000000) ++ "," ++ pad 3 (n % 1000000000 / 1000000)

/-- Modelled from the spec: the text of one display line in the SRT output (the writer
is part of the astisub library, whose source is not in the repository): the texts of
its segments, one after the other. -/
def lineText (line : Line) : String := String.join (line.Items.map LineItem.Text)

/-- Modelled from the spec: one cue of the SRT output (the writer is part of the
astisub library, whose source is not in the repository): the numeric index, the time
range line, the text lines and a blank line. -/
def srtCue (item : Item) : String :=
  toString item.Index ++ "\n" ++
    formatDurationSRT item.StartAt ++ " --> " ++ formatDurationSRT item.EndAt ++ "\n" ++
    String.join (item.Lines.map (fun line => lineText line ++ "\n")) ++ "\n"

/-- Modelled from the spec: `(astisub.Subtitles).WriteToSRT`, the serialization of the
cues to SRT text (part of the astisub library, whose source is not in the
repository): the cues in order, each followed by a blank line. -/
def Subtitles.WriteToSRT (s : Subtitles) : Except Error Bytes :=
  .ok (utf8 (String.join (s.Items.map srtCue)))

/-! ## Inputs of the examples -/

/-- The JSON input of the example of the specification. -/
def helloWorldJson : String :=
  "\x7b\"body\":[\x7b\"from\":1.5,\"to\":3.0,\"location\":2,\"content\":\"Hello\\nWorld\"\x7d]\x7d"

/-- The document `helloWorldJson` decodes to: the fields that are absent have their
zero values, the numbers are the binary64 values nearest to the decimals. -/
def helloWorldDoc : JsonSub :=
  { FontSize := 0
    FontColor := ""
    BackgroundAlpha := 0
    BackgroundColor := ""
    Stroke := ""
    Body := [{ From := roundNE (15 / 10), To := roundNE (30 / 10), Location := 2,
               Content := "Hello\nWorld" }] }

/-- The SRT text of the example of the specification. -/
def helloWorldSrt : String := "1\n00:00:01,500 --> 00:00:03,000\nHello\nWorld\n\n"

/-- A decoder that knows the example input only. -/
def helloWorldUnmarshal (data : Bytes) : Except Error JsonSub :=
  if data = utf8 helloWorldJson then .ok helloWorldDoc else .error "unexpected end of JSON input"

/-- A file system holding the example input as `input.json` and nothing else. -/
def helloWorldFiles : FileSystem :=
  FileSystem.put (fun _ => none) "input.json" (utf8 helloWorldJson)

/-- A file system holding the example input and an `output.srt` left by an earlier,
longer conversion. -/
def staleFiles : FileSystem :=
  FileSystem.put helloWorldFiles "output.srt"
    (utf8 "1\n00:00:01,000 --> 00:00:02,000\nAn older subtitle\n\n2\n00:00:04,000 --> 00:00:05,000\nleft over\n\n")

/-- Libraries that refuse everything, for runs that never reach them. -/
def refusingLibraries : Libraries :=
  { lowerTable := id
    Unmarshal := fun _ => .error "invalid character"
    Marshal := fun _ => .error "unsupported value"
    Parse := fun _ _ => .error "invalid extension"
    WriteToSRT := fun _ => .error "no subtitles to write" }

/-- A cue with one line of two segments, "a" and "b". -/
def twoSegmentCue : Item :=
  { Index := 1
    StartAt := 1500 * Millisecond
    EndAt := 3000 * Millisecond
    Lines := [{ Items := [{ Text := "a" }, { Text := "b" }] }] }

theorem json2srtLoop_eq (body : List JsonSubBody) (items : List Item) (index : Int) :
    json2srtLoop body (items, index) =
      (items ++ itemsFrom index body, index + body.length) := by
  induction body generalizing items index with
  | nil => simp [json2srtLoop, itemsFrom]
  | cons value rest ih =>
    simp only [json2srtLoop, ih, itemsFrom, List.length_cons, List.append_assoc,
      List.singleton_append, Nat.cast_add, Nat.cast_one, Prod.mk.injEq, true_and]
    omega

theorem json2srtItems_eq (subtitle : JsonSub) :
    json2srtItems subtitle = itemsFrom 1 subtitle.Body := by
  simp [json2srtItems, json2srtLoop_eq]

theorem itemsFrom_length (index : Int) (body : List JsonSubBody) :
    (itemsFrom index body).length = body.length := by
  induction body generalizing index with
  | nil => rfl
  | cons value rest ih => simp [itemsFrom, ih]

theorem itemsFrom_getElem? (index : Int) (body : List JsonSubBody) (i : Nat) :
    (itemsFrom index body)[i]? = (body[i]?).map (json2srtItem (index + i)) := by
  induction body generalizing index i with
  | nil => simp [itemsFrom]
  | cons value rest ih =>
    cases i with
    | zero => simp [itemsFrom]
    | succ j =>
      have hidx : index + 1 + (j : Int) = index + ((j : Int) + 1) := by omega
      simp only [itemsFrom, List.getElem?_cons_succ, ih, Nat.cast_add, Nat.cast_one, hidx]

theorem any2jsonLineItems_eq (segs : List LineItem) (lines : List String) :
    any2jsonLineItems segs lines = lines ++ segs.map LineItem.Text := by
  induction segs generalizing lines with
  | nil => simp [any2jsonLineItems]
  | cons seg rest ih => simp [any2jsonLineItems, ih]

theorem any2jsonLines_eq (ls : List Line) (lines : List String) :
    any2jsonLines ls lines = lines ++ (ls.flatMap Line.Items).map LineItem.Text := by
  induction ls generalizing lines with
  | nil => simp [any2jsonLines]
  | cons l rest ih => simp [any2jsonLines, ih, any2jsonLineItems_eq]

theorem any2jsonLoop_eq (items : List Item) (doc : JsonSub) :
    any2jsonLoop items doc = { doc with Body := doc.Body ++ items.map any2jsonEntry } := by
  induction items generalizing doc with
  | nil => simp [any2jsonLoop]
  | cons item rest ih => simp [any2jsonLoop, ih]

/-! ## The claims on the two mappings -/

/-- C1: for a decoded document with N body entries `json2srt` builds exactly N cues,
and at every position `i` (0-based) the cue is the one built from the `i`-th body
entry with `Index = i + 1`: same order, none dropped, none duplicated. -/
theorem json2srt_cues_indexed (subtitle : JsonSub) :
    (json2srtItems subtitle).length = subtitle.Body.length ∧
    (∀ i : Nat, (json2srtItems subtitle)[i]? =
      (subtitle.Body[i]?).map (json2srtItem ((i : Int) + 1))) ∧
    (∀ i : Nat, ((json2srtItems subtitle)[i]?).map Item.Index =
      (subtitle.Body[i]?).map (fun _ => (i : Int) + 1)) := by
  have h : ∀ i : Nat, (json2srtItems subtitle)[i]? =
      (subtitle.Body[i]?).map (json2srtItem ((i : Int) + 1)) := by
    intro i
    rw [json2srtItems_eq, itemsFrom_getElem?, add_comm]
  refine ⟨?_, h, ?_⟩
  · rw [json2srtItems_eq, itemsFrom_length]
  · intro i
    rw [h i]
    cases subtitle.Body[i]? <;> simp [json2srtItem]

/-- C9: the cue `json2srt` builds for a body entry has exactly one line, that line
has exactly one text segment, and the segment's text is the entry's content verbatim
(nothing is split at embedded newlines). -/
theorem json2srt_single_line_single_segment (subtitle : JsonSub) (i : Nat) :
    ((json2srtItems subtitle)[i]?).map Item.Lines =
      (subtitle.Body[i]?).map (fun value => [{ Items := [{ Text := value.Content }] }]) := by
  rw [json2srtItems_eq, itemsFrom_getElem?]
  cases subtitle.Body[i]? <;> simp [json2srtItem]

/-- C2: for parsed subtitles with N cues `any2json` builds a `JsonSub` whose `Body`
has length N, in cue order, every entry with `Location = 2`, and whose styling fields
are `FontSize` 0.4, `FontColor` "#FFFFFF", `BackgroundAlpha` 0.5, `BackgroundColor`
"#9C27B0" and `Stroke` "none", whatever the input holds. -/
theorem any2json_body_and_styling (sub : Subtitles) :
    (any2jsonDoc sub).Body.length = sub.Items.length ∧
    (any2jsonDoc sub).Body = sub.Items.map any2jsonEntry ∧
    (any2jsonDoc sub).Body.map JsonSubBody.Location = List.replicate sub.Items.length 2 ∧
    (any2jsonDoc sub).FontSize = roundNE (4 / 10) ∧
    (any2jsonDoc sub).FontColor = "#FFFFFF" ∧
    (any2jsonDoc sub).BackgroundAlpha = roundNE (5 / 10) ∧
    (any2jsonDoc sub).BackgroundColor = "#9C27B0" ∧
    (any2jsonDoc sub).Stroke = "none" := by
  simp only [any2jsonDoc, any2jsonLoop_eq, List.nil_append, List.length_map, List.map_map,
    true_and, and_true]
  rw [List.eq_replicate_iff]
  simp [any2jsonEntry]

/-- C3 as stated fails: for a cue with one line of the two segments "a" and "b" the
content `any2json` produces is "a\nb", not the line-wise content "ab". -/
theorem any2json_content_not_line_wise :
    lineWiseContent twoSegmentCue = "ab" ∧
    (any2jsonEntry twoSegmentCue).Content = "a\nb" ∧
    (any2jsonEntry twoSegmentCue).Content ≠ lineWiseContent twoSegmentCue := by
  decide

/-- C3, amended: the content `any2json` produces for a cue is the newline-join of the
texts of all the segments of all its lines, in order, one string per segment; a cue
with one line of two segments "a" and "b" yields "a\nb". -/
theorem any2json_content_segment_wise (item : Item) :
    (any2jsonEntry item).Content =
      Join ((item.Lines.flatMap Line.Items).map LineItem.Text) "\n" ∧
    (any2jsonEntry { item with Lines := [{ Items := [{ Text := "a" }, { Text := "b" }] }] }).Content
      = "a\nb" := by
  constructor
  · simp [any2jsonEntry, any2jsonLines_eq]
  · rfl

/-! ## Unsupported pairs -/

/-- What happens on an unsupported pair, for any two conversions: the state is left
as it was and the message naming the extension is printed. -/
theorem main_unsupported {σ : Type} (lowerTable : Char → Char) (j a : Conversion σ)
    (inputPath outputPath : String) (w : World σ)
    (h : unsupportedPair lowerTable inputPath outputPath) :
    main lowerTable j a [inputPath, outputPath] w =
      ⟨w.sys, w.stdout ++ notSupported (offendingExt lowerTable inputPath outputPath)⟩ := by
  unfold unsupportedPair at h
  rcases h with ⟨hi, ho⟩ | ⟨hi, ho⟩ | ⟨h1, h2, h3⟩
  · simp [main, processJsonSub, report, offendingExt, notSupported, hi, ho, String.append_assoc]
  · have hne : ToLower lowerTable (Ext inputPath) ≠ ".json" := by
      rcases hi with hi | hi <;> rw [hi] <;> decide
    simp [main, processSrtSub, report, offendingExt, notSupported, hi, ho, hne,
      String.append_assoc]
  · simp [main, offendingExt, notSupported, h1, h2, h3, String.append_assoc]

/-! ## The claims on the dispatch -/

/-- C6: the dispatch selects `json2srt` if and only if the lower-cased input extension
is `.json` and the lower-cased output extension is `.srt`; it selects `any2json` if and
only if the lower-cased input extension is `.srt` or `.ass` and the lower-cased output
extension is `.json`; in every other case, and only then, no conversion is invoked and
the message printed names the offending extension (the input one when the input kind
is not recognised, otherwise the output one). JSON to JSON, SRT to SRT and SRT to ASS
are rejected. -/
theorem dispatch_selection (lowerTable : Char → Char) (inputPath outputPath : String) :
    ((dispatch lowerTable inputPath outputPath).sys = [(Op.json2srt, inputPath, outputPath)] ↔
      ToLower lowerTable (Ext inputPath) = ".json" ∧
        ToLower lowerTable (Ext outputPath) = ".srt") ∧
    ((dispatch lowerTable inputPath outputPath).sys = [(Op.any2json, inputPath, outputPath)] ↔
      (ToLower lowerTable (Ext inputPath) = ".srt" ∨
          ToLower lowerTable (Ext inputPath) = ".ass") ∧
        ToLower lowerTable (Ext outputPath) = ".json") ∧
    (dispatch lowerTable inputPath outputPath =
        ⟨[], notSupported (offendingExt lowerTable inputPath outputPath)⟩ ↔
      ¬ (ToLower lowerTable (Ext inputPath) = ".json" ∧
          ToLower lowerTable (Ext outputPath) = ".srt") ∧
      ¬ ((ToLower lowerTable (Ext inputPath) = ".srt" ∨
          ToLower lowerTable (Ext inputPath) = ".ass") ∧
        ToLower lowerTable (Ext outputPath) = ".json")) ∧
    dispatch lowerTable "a.json" "b.json" = ⟨[], notSupported ".json"⟩ ∧
    dispatch lowerTable "a.srt" "b.srt" = ⟨[], notSupported ".srt"⟩ ∧
    dispatch lowerTable "a.srt" "b.ass" = ⟨[], notSupported ".ass"⟩ := by
  have e1 : (".srt" : String) ≠ ".json" := by decide
  have e2 : (".ass" : String) ≠ ".json" := by decide
  have e3 : (".json" : String) ≠ ".srt" := by decide
  have e4 : (".json" : String) ≠ ".ass" := by decide
  refine ⟨?_, ?_, ?_, rfl, rfl, rfl⟩
  all_goals
    by_cases hi : ToLower lowerTable (Ext inputPath) = ".json"
    · by_cases ho : ToLower lowerTable (Ext outputPath) = ".srt"
      · simp [dispatch, main, processJsonSub, recordCall, report, hi, ho, e3, e4]
      · simp [dispatch, main, processJsonSub, recordCall, report, hi, ho, e3, e4,
          offendingExt, notSupported, String.append_assoc]
    · by_cases hs : ToLower lowerTable (Ext inputPath) = ".srt" ∨
          ToLower lowerTable (Ext inputPath) = ".ass"
      · by_cases ho : ToLower lowerTable (Ext outputPath) = ".json"
        · simp [dispatch, main, processSrtSub, recordCall, report, hi, hs, ho]
        · simp [dispatch, main, processSrtSub, recordCall, report, hi, hs, ho,
            offendingExt, notSupported, String.append_assoc]
      · simp [dispatch, main, hi, hs, offendingExt, notSupported, String.append_assoc]

/-- C5: on an unsupported extension pair the run prints the unsupported-format message
and leaves the file system as it was: no file is created or modified, the output file
in particular, and neither `json2srt` nor `any2json` is invoked (whatever the two
conversions are, the state they act on is untouched). -/
theorem unsupported_pair_leaves_files (L : Libraries) (inputPath outputPath : String)
    (w : World FileSystem) (h : unsupportedPair L.lowerTable inputPath outputPath) :
    (program L [inputPath, outputPath] w).sys = w.sys ∧
    (program L [inputPath, outputPath] w).sys outputPath = w.sys outputPath ∧
    (program L [inputPath, outputPath] w).stdout =
      w.stdout ++ notSupported (offendingExt L.lowerTable inputPath outputPath) ∧
    (dispatch L.lowerTable inputPath outputPath).sys = [] ∧
    (∀ (σ : Type) (j a : Conversion σ) (s : World σ),
      (main L.lowerTable j a [inputPath, outputPath] s).sys = s.sys) := by
  refine ⟨?_, ?_, ?_, ?_, ?_⟩
  · simp [program, main_unsupported _ _ _ _ _ _ h]
  · simp [program, main_unsupported _ _ _ _ _ _ h]
  · simp [program, main_unsupported _ _ _ _ _ _ h]
  · simp [dispatch, main_unsupported _ _ _ _ _ _ h]
  · intro σ j a s
    simp [main_unsupported _ _ _ _ _ _ h]

/-- C5 at input `a.json`, output `b.txt` on an empty file system: the pair is
unsupported, `b.txt` is not created and the message names `.txt`. -/
theorem unsupported_pair_leaves_files_witness :
    unsupportedPair id "a.json" "b.txt" ∧
    (program refusingLibraries ["a.json", "b.txt"] ⟨fun _ => none, ""⟩).sys "b.txt" = none ∧
    (program refusingLibraries ["a.json", "b.txt"] ⟨fun _ => none, ""⟩).stdout =
      "\".txt\" file type is not supported\n" := by
  have hu : unsupportedPair refusingLibraries.lowerTable "a.json" "b.txt" :=
    Or.inl ⟨by decide, by decide⟩
  have h := unsupported_pair_leaves_files refusingLibraries "a.json" "b.txt"
    ⟨fun _ => none, ""⟩ hu
  exact ⟨hu, h.2.1, by rw [h.2.2.1]; decide⟩

/-! ## Case of the extensions -/

theorem toLowerRune_sameLetter (lowerTable : Char → Char) {a b : Char}
    (h : sameLetter lowerTable a b) :
    toLowerRune lowerTable a = toLowerRune lowerTable b := by
  have hA : 'A'.toNat = 65 := rfl
  have hZ : 'Z'.toNat = 90 := rfl
  rcases h with h | ⟨h1, h2, h3⟩ | ⟨h1, h2, h3⟩ | ⟨h1, h2, h3⟩
  · rw [h]
  · rw [hA] at h1
    rw [hZ] at h2
    have ha : toLowerRune lowerTable a = Char.ofNat (a.toNat + 32) := by
      unfold toLowerRune
      rw [if_pos (by omega), if_pos ⟨by omega, by omega⟩]
    have hb : toLowerRune lowerTable b = b := by
      unfold toLowerRune
      rw [if_pos (by omega), if_neg (by omega)]
    rw [ha, hb, ← h3, Char.ofNat_toNat]
  · rw [hA] at h1
    rw [hZ] at h2
    have hb : toLowerRune lowerTable b = Char.ofNat (b.toNat + 32) := by
      unfold toLowerRune
      rw [if_pos (by omega), if_pos ⟨by omega, by omega⟩]
    have ha : toLowerRune lowerTable a = a := by
      unfold toLowerRune
      rw [if_pos (by omega), if_neg (by omega)]
    rw [ha, hb, ← h3, Char.ofNat_toNat]
  · unfold toLowerRune
    rw [if_neg (by omega), if_neg (by omega), h3]

theorem sameLetter_eq_iff_of_not_letter {lowerTable : Char → Char} {a b : Char}
    (h : sameLetter lowerTable a b) (c : Char) (hc : c.toNat < 65) : a = c ↔ b = c := by
  have hA : 'A'.toNat = 65 := rfl
  rcases h with h | ⟨h1, h2, h3⟩ | ⟨h1, h2, h3⟩ | ⟨h1, h2, h3⟩
  · rw [h]
  · rw [hA] at h1
    constructor
    · intro e; rw [e] at h1; omega
    · intro e; rw [e] at h3; omega
  · rw [hA] at h1
    constructor
    · intro e; rw [e] at h3; omega
    · intro e; rw [e] at h1; omega
  · constructor
    · intro e; rw [e] at h1; omega
    · intro e; rw [e] at h2; omega

theorem extScan_sameLetter {lowerTable : Char → Char} {r1 r2 : List Char}
    (hr : List.Forall₂ (sameLetter lowerTable) r1 r2) :
    ∀ {a1 a2 : List Char}, List.Forall₂ (sameLetter lowerTable) a1 a2 →
      List.Forall₂ (sameLetter lowerTable) (extScan r1 a1) (extScan r2 a2) := by
  induction hr with
  | nil => intro a1 a2 _; exact List.Forall₂.nil
  | @cons c1 c2 t1 t2 hc _ ih =>
    intro a1 a2 ha
    have hsep : (c1 = '/') ↔ (c2 = '/') := sameLetter_eq_iff_of_not_letter hc '/' (by decide)
    have hdot : (c1 = '.') ↔ (c2 = '.') := sameLetter_eq_iff_of_not_letter hc '.' (by decide)
    by_cases h1 : c1 = '/'
    · have h2 := hsep.1 h1
      simp [extScan, IsPathSeparator, h1, h2]
    · have h2 : ¬ c2 = '/' := fun e => h1 (hsep.2 e)
      by_cases d1 : c1 = '.'
      · have d2 := hdot.1 d1
        simp only [extScan, IsPathSeparator, h1, h2, d1, d2, decide_False, Bool.false_eq_true,
          if_false, if_true]
        exact List.Forall₂.cons (Or.inl rfl) ha
      · have d2 : ¬ c2 = '.' := fun e => d1 (hdot.2 e)
        simp only [extScan, IsPathSeparator, h1, h2, d1, d2, decide_False, Bool.false_eq_true,
          if_false]
        exact ih (List.Forall₂.cons hc ha)

theorem map_toLowerRune_sameLetter (lowerTable : Char → Char) {l1 l2 : List Char}
    (h : List.Forall₂ (sameLetter lowerTable) l1 l2) :
    l1.map (toLowerRune lowerTable) = l2.map (toLowerRune lowerTable) := by
  induction h with
  | nil => rfl
  | cons hc _ ih => simp [toLowerRune_sameLetter lowerTable hc, ih]

theorem ToLower_caseVariant (lowerTable : Char → Char) {s t : String}
    (h : caseVariant lowerTable s t) : ToLower lowerTable s = ToLower lowerTable t := by
  unfold ToLower
  rw [map_toLowerRune_sameLetter lowerTable h]

theorem Ext_caseVariant {lowerTable : Char → Char} {s t : String}
    (h : caseVariant lowerTable s t) : caseVariant lowerTable (Ext s) (Ext t) := by
  unfold caseVariant Ext
  exact extScan_sameLetter (List.rel_reverse h) List.Forall₂.nil

/-- The dispatch depends on the two paths only through their lower-cased extensions,
the paths handed to the conversion apart. -/
theorem dispatch_congr (lowerTable : Char → Char) (i1 i2 o1 o2 : String)
    (hi : ToLower lowerTable (Ext i1) = ToLower lowerTable (Ext i2))
    (ho : ToLower lowerTable (Ext o1) = ToLower lowerTable (Ext o2)) :
    (dispatch lowerTable i1 o1).sys.map Prod.fst = (dispatch lowerTable i2 o2).sys.map Prod.fst ∧
    (dispatch lowerTable i1 o1).stdout = (dispatch lowerTable i2 o2).stdout := by
  simp only [dispatch, main, processJsonSub, processSrtSub, recordCall, hi, ho]
  by_cases h1 : ToLower lowerTable (Ext i2) = ".json"
  · by_cases h2 : ToLower lowerTable (Ext o2) = ".srt" <;> simp [h1, h2, report]
  · by_cases h3 : ToLower lowerTable (Ext i2) = ".srt" ∨ ToLower lowerTable (Ext i2) = ".ass"
    · by_cases h2 : ToLower lowerTable (Ext o2) = ".json" <;> simp [h1, h2, h3, report]
    · simp [h1, h3]

/-- C7: extension matching is case-insensitive. For two input paths and two output
paths that differ only in the case of their letters (of the letters of their
extensions in particular; `FILE.JSON`, `file.json` and `file.JsOn` are such paths),
the dispatch invokes the same conversion or prints the same failure message. -/
theorem dispatch_case_insensitive (lowerTable : Char → Char) (i1 i2 o1 o2 : String)
    (hi : caseVariant lowerTable i1 i2) (ho : caseVariant lowerTable o1 o2) :
    (dispatch lowerTable i1 o1).sys.map Prod.fst = (dispatch lowerTable i2 o2).sys.map Prod.fst ∧
    (dispatch lowerTable i1 o1).stdout = (dispatch lowerTable i2 o2).stdout :=
  dispatch_congr lowerTable i1 i2 o1 o2
    (ToLower_caseVariant lowerTable (Ext_caseVariant hi))
    (ToLower_caseVariant lowerTable (Ext_caseVariant ho))

/-- C7 at the paths of the specification: `FILE.JSON` and `file.JsOn` as inputs,
`OUT.SRT` and `out.srt` as outputs, select the same conversion, `json2srt`. -/
theorem dispatch_case_insensitive_witness :
    caseVariant id "FILE.JSON" "file.JsOn" ∧ caseVariant id "OUT.SRT" "out.srt" ∧
    (dispatch id "FILE.JSON" "OUT.SRT").sys.map Prod.fst = [Op.json2srt] ∧
    (dispatch id "file.JsOn" "out.srt").sys.map Prod.fst = [Op.json2srt] ∧
    (dispatch id "FILE.JSON" "OUT.SRT").stdout = (dispatch id "file.JsOn" "out.srt").stdout := by
  have hi : caseVariant id "FILE.JSON" "file.JsOn" := by
    unfold caseVariant sameLetter
    repeat first
      | exact List.Forall₂.nil
      | refine List.Forall₂.cons (by decide) ?_
  have ho : caseVariant id "OUT.SRT" "out.srt" := by
    unfold caseVariant sameLetter
    repeat first
      | exact List.Forall₂.nil
      | refine List.Forall₂.cons (by decide) ?_
  have h := dispatch_case_insensitive id "FILE.JSON" "file.JsOn" "OUT.SRT" "out.srt" hi ho
  exact ⟨hi, ho, by decide, by decide, h.2⟩

/-! ## binary64 rounding: evaluation and error -/

theorem roundHalfEven_intCast (n : ℤ) : roundHalfEven (n : ℚ) = n := by
  simp [roundHalfEven]

theorem abs_roundHalfEven_sub_le (x : ℚ) : |(roundHalfEven x : ℚ) - x| ≤ 1 / 2 := by
  have h1 : ((⌊x⌋ : ℤ) : ℚ) ≤ x := Int.floor_le x
  have h2 : x < (⌊x⌋ : ℤ) + 1 := Int.lt_floor_add_one x
  unfold roundHalfEven
  simp only
  rw [abs_le]
  split_ifs with a b c
  · constructor <;> linarith
  · push_cast; constructor <;> linarith
  · constructor <;> linarith
  · push_cast; constructor <;> linarith

theorem roundHalfEven_eq_of_near {x : ℚ} {n : ℤ} (h : |x - n| < 1 / 2) :
    roundHalfEven x = n := by
  have h0 := abs_roundHalfEven_sub_le x
  rw [abs_lt] at h
  rw [abs_le] at h0
  have h3 : ((roundHalfEven x : ℤ) : ℚ) < (n : ℚ) + 1 := by linarith
  have h4 : (n : ℚ) - 1 < ((roundHalfEven x : ℤ) : ℚ) := by linarith
  have h5 : roundHalfEven x < n + 1 := by exact_mod_cast h3
  have h6 : n - 1 < roundHalfEven x := by exact_mod_cast h4
  omega

theorem log_two_eq {q : ℚ} {e : ℤ} (h1 : (2 : ℚ) ^ e ≤ q) (h2 : q < (2 : ℚ) ^ (e + 1)) :
    Int.log 2 q = e := by
  have hq : 0 < q := lt_of_lt_of_le (zpow_pos (by norm_num) e) h1
  have a : e ≤ Int.log 2 q := (Int.zpow_le_iff_le_log (by norm_num) hq).1 (by simpa using h1)
  have b : Int.log 2 q < e + 1 := (Int.lt_zpow_iff_log_lt (by norm_num) hq).1 (by simpa using h2)
  omega

theorem ulp_pos (q : ℚ) : 0 < ulp q := zpow_pos (by norm_num) _

theorem binade_eq {q : ℚ} {e : ℤ} (he : -1022 ≤ e) (h1 : (2 : ℚ) ^ e ≤ |q|)
    (h2 : |q| < (2 : ℚ) ^ (e + 1)) : binade q = e := by
  unfold binade
  rw [log_two_eq h1 h2]
  exact max_eq_left he

/-- Evaluation of a rounding: in the binade of exponent `e` the result is the
multiple `n` of the spacing nearest to `q`. -/
theorem roundNE_eq_of_near {q : ℚ} {e n : ℤ} (he : -1022 ≤ e) (h1 : (2 : ℚ) ^ e ≤ |q|)
    (h2 : |q| < (2 : ℚ) ^ (e + 1)) (hn : |q / 2 ^ (e - 52) - n| < 1 / 2) :
    roundNE q = n * 2 ^ (e - 52) := by
  unfold roundNE ulp
  rw [binade_eq he h1 h2, roundHalfEven_eq_of_near hn]

/-- Rounding keeps a value that is a multiple of the spacing of its binade. -/
theorem roundNE_eq_self {q : ℚ} {e n : ℤ} (he : -1022 ≤ e) (h1 : (2 : ℚ) ^ e ≤ |q|)
    (h2 : |q| < (2 : ℚ) ^ (e + 1)) (hn : q = n * 2 ^ (e - 52)) : roundNE q = q := by
  have hp : (0 : ℚ) < 2 ^ (e - 52) := zpow_pos (by norm_num) _
  rw [roundNE_eq_of_near he h1 h2 (n := n), ← hn]
  rw [hn, mul_div_assoc, div_self (ne_of_gt hp)]
  simp

theorem binade_le {q : ℚ} {E : ℤ} (hE : -1022 ≤ E) (h0 : 0 ≤ E ∨ q ≠ 0)
    (hq : |q| < (2 : ℚ) ^ (E + 1)) : binade q ≤ E := by
  unfold binade
  apply max_le _ hE
  by_cases hz : q = 0
  · subst hz
    rcases h0 with h | h
    · simpa using h
    · exact absurd rfl h
  · have h := (Int.lt_zpow_iff_log_lt (b := 2) (by norm_num) (abs_pos.2 hz)).1
      (by simpa using hq)
    omega

/-- Integers below `2 ^ 53` in magnitude are binary64 values. -/
theorem roundNE_intCast {n : ℤ} (hn : |(n : ℚ)| < 2 ^ 53) : roundNE (n : ℚ) = n := by
  have hb : binade (n : ℚ) ≤ 52 := binade_le (by norm_num) (Or.inl (by norm_num))
    (by norm_num; exact hn)
  have hu := ulp_pos (n : ℚ)
  obtain ⟨j, hj⟩ : ∃ j : ℕ, 52 - binade (n : ℚ) = j := ⟨(52 - binade (n : ℚ)).toNat, by omega⟩
  have hdiv : (n : ℚ) / ulp (n : ℚ) = ((n * 2 ^ j : ℤ) : ℚ) := by
    unfold ulp
    rw [div_eq_mul_inv, ← zpow_neg, neg_sub, hj, zpow_natCast]
    push_cast
    rfl
  have key : ((n * 2 ^ j : ℤ) : ℚ) * ulp (n : ℚ) = n := by
    rw [← hdiv]
    field_simp
  unfold roundNE
  rw [hdiv, roundHalfEven_intCast, key]

theorem roundNE_second : roundNE 1000000000 = 1000000000 := by
  have h := roundNE_intCast (n := 1000000000) (by norm_num [abs_of_pos])
  simpa using h

theorem secondsToDuration_one_and_a_half : secondsToDuration (roundNE (15 / 10)) = 1500000000 := by
  have h1 : roundNE (15 / 10) = 3 / 2 := by
    rw [show (15 / 10 : ℚ) = 3 / 2 by norm_num]
    apply roundNE_eq_self (e := 0) (n := 3 * 2 ^ 51) <;> norm_num [abs_of_pos]
  have h2 : roundNE (((1500000000 : ℤ) : ℚ)) = ((1500000000 : ℤ) : ℚ) :=
    roundNE_intCast (by norm_num [abs_of_pos])
  have h3 : roundNE (((1000000000 : ℤ) : ℚ)) = 1000000000 := by simpa using roundNE_second
  have h4 : (3 / 2 : ℚ) * 1000000000 = ((1500000000 : ℤ) : ℚ) := by norm_num
  simp only [secondsToDuration, Float64.mul, float64, Second, h1, h3, h4, h2, truncToInt]
  norm_num

theorem secondsToDuration_three : secondsToDuration (roundNE (30 / 10)) = 3000000000 := by
  have h1 : roundNE (30 / 10) = 3 := by
    rw [show (30 / 10 : ℚ) = 3 by norm_num]
    apply roundNE_eq_self (e := 1) (n := 3 * 2 ^ 51) <;> norm_num [abs_of_pos]
  have h2 : roundNE (((3000000000 : ℤ) : ℚ)) = ((3000000000 : ℤ) : ℚ) :=
    roundNE_intCast (by norm_num [abs_of_pos])
  have h3 : roundNE (((1000000000 : ℤ) : ℚ)) = 1000000000 := by simpa using roundNE_second
  have h4 : (3 : ℚ) * 1000000000 = ((3000000000 : ℤ) : ℚ) := by norm_num
  simp only [secondsToDuration, Float64.mul, float64, Second, h1, h3, h4, h2, truncToInt]
  norm_num

theorem json2srtItems_helloWorld :
    json2srtItems helloWorldDoc =
      [{ Index := 1, StartAt := 1500000000, EndAt := 3000000000,
         Lines := [{ Items := [{ Text := "Hello\nWorld" }] }] }] := by
  simp [json2srtItems_eq, helloWorldDoc, itemsFrom, json2srtItem,
    secondsToDuration_one_and_a_half, secondsToDuration_three]

/-! ## What `json2srt` and `any2json` leave in the output file -/

theorem FileSystem.put_put (fs : FileSystem) (name : String) (a b : Bytes) :
    (fs.put name a).put name b = fs.put name b := by
  funext p
  unfold FileSystem.put
  by_cases h : p = name <;> simp [h]

theorem FileSystem.put_same (fs : FileSystem) (name : String) (a : Bytes) :
    (fs.put name a) name = some (Node.file a) := by
  simp [FileSystem.put]

/-- A successful `json2srt` whose output file did not exist creates it with exactly the
bytes of the writer. -/
theorem json2srt_creates (Unmarshal : Bytes → Except Error JsonSub)
    (WriteToSRT : Subtitles → Except Error Bytes) (inputPath outputPath : String)
    (fs : FileSystem) (data c : Bytes) (subtitle : JsonSub)
    (hin : fs inputPath = some (Node.file data)) (hdec : Unmarshal data = .ok subtitle)
    (hw : WriteToSRT { Items := json2srtItems subtitle } = .ok c)
    (hout : fs outputPath = none) :
    json2srt Unmarshal WriteToSRT inputPath outputPath fs = (none, fs.put outputPath c) := by
  simp [json2srt, ReadFile, OpenFile, File.Write, writeAt, hin, hdec, hw, hout,
    FileSystem.put_put, FileSystem.put_same]

/-- A successful `json2srt` whose output file existed writes over its beginning and
keeps what lies beyond the bytes of the writer: the file is opened without `O_TRUNC`. -/
theorem json2srt_overwrites (Unmarshal : Bytes → Except Error JsonSub)
    (WriteToSRT : Subtitles → Except Error Bytes) (inputPath outputPath : String)
    (fs : FileSystem) (data c old : Bytes) (subtitle : JsonSub)
    (hin : fs inputPath = some (Node.file data)) (hdec : Unmarshal data = .ok subtitle)
    (hw : WriteToSRT { Items := json2srtItems subtitle } = .ok c)
    (hout : fs outputPath = some (Node.file old)) :
    json2srt Unmarshal WriteToSRT inputPath outputPath fs =
      (none, fs.put outputPath (c ++ old.drop c.length)) := by
  simp [json2srt, ReadFile, OpenFile, File.Write, writeAt, hin, hdec, hw, hout]

/-- Go `os.WriteFile` replaces the contents of an existing file: it opens with `O_TRUNC`. -/
theorem WriteFile_replaces (fs : FileSystem) (name : String) (data old : Bytes)
    (hout : fs name = some (Node.file old)) :
    WriteFile fs name data = (none, fs.put name data) := by
  simp [WriteFile, OpenFile, File.Write, writeAt, hout, FileSystem.put_put,
    FileSystem.put_same]

theorem WriteToSRT_helloWorld :
    Subtitles.WriteToSRT { Items := json2srtItems helloWorldDoc } = .ok (utf8 helloWorldSrt) := by
  rw [json2srtItems_helloWorld]
  unfold Subtitles.WriteToSRT
  congr 1

/-- C10: for the JSON input of the example, `json2srt` builds one cue with index 1,
start 1.5 s (`00:00:01,500`) and end 3 s (`00:00:03,000`), and the SRT text it writes
is "1\n00:00:01,500 --> 00:00:03,000\nHello\nWorld\n\n": the newline embedded in the
content is a line break between two displayed lines. (The decoding of the input is
that of `encoding/json`; the output file is new.) -/
theorem json2srt_hello_world (Unmarshal : Bytes → Except Error JsonSub)
    (inputPath outputPath : String) (fs : FileSystem)
    (hin : fs inputPath = some (Node.file (utf8 helloWorldJson)))
    (hdec : Unmarshal (utf8 helloWorldJson) = .ok helloWorldDoc)
    (hout : fs outputPath = none) :
    json2srtItems helloWorldDoc =
      [{ Index := 1, StartAt := 1500 * Millisecond, EndAt := 3000 * Millisecond,
         Lines := [{ Items := [{ Text := "Hello\nWorld" }] }] }] ∧
    formatDurationSRT (1500 * Millisecond) = "00:00:01,500" ∧
    formatDurationSRT (3000 * Millisecond) = "00:00:03,000" ∧
    Subtitles.WriteToSRT { Items := json2srtItems helloWorldDoc } = .ok (utf8 helloWorldSrt) ∧
    json2srt Unmarshal Subtitles.WriteToSRT inputPath outputPath fs =
      (none, fs.put outputPath (utf8 helloWorldSrt)) ∧
    helloWorldSrt = "1\n00:00:01,500 --> 00:00:03,000\nHello\nWorld\n\n" := by
  refine ⟨?_, by decide, by decide, WriteToSRT_helloWorld, ?_, rfl⟩
  · rw [json2srtItems_helloWorld]
    rfl
  · exact json2srt_creates Unmarshal Subtitles.WriteToSRT inputPath outputPath fs _ _ _
      hin hdec WriteToSRT_helloWorld hout

/-- C10 on `input.json` and `output.srt`: the file that comes out holds the SRT text of
the example. -/
theorem json2srt_hello_world_witness :
    (json2srt helloWorldUnmarshal Subtitles.WriteToSRT "input.json" "output.srt"
        helloWorldFiles).1 = none ∧
    (json2srt helloWorldUnmarshal Subtitles.WriteToSRT "input.json" "output.srt"
        helloWorldFiles).2 "output.srt" =
      some (Node.file (utf8 "1\n00:00:01,500 --> 00:00:03,000\nHello\nWorld\n\n")) := by
  have h := (json2srt_hello_world helloWorldUnmarshal "input.json" "output.srt" helloWorldFiles
    (by decide) (if_pos rfl) (by decide)).2.2.2.2.1
  rw [h]
  exact ⟨rfl, by simp [FileSystem.put_same, helloWorldSrt]⟩

/-- C4: the code breaks the claim. `json2srt` succeeds on `staleFiles`, and the output
file afterwards is the new SRT text followed by the end of its previous contents, not
the new SRT text alone; `os.WriteFile`, which `any2json` uses, on the same file leaves
the new bytes and nothing else. -/
theorem json2srt_keeps_stale_tail :
    (json2srt helloWorldUnmarshal (fun _ => .ok (utf8 helloWorldSrt)) "input.json"
        "output.srt" staleFiles).1 = none ∧
    (json2srt helloWorldUnmarshal (fun _ => .ok (utf8 helloWorldSrt)) "input.json"
        "output.srt" staleFiles).2 "output.srt" =
      some (Node.file (utf8 (helloWorldSrt ++
        "itle\n\n2\n00:00:04,000 --> 00:00:05,000\nleft over\n\n"))) ∧
    (json2srt helloWorldUnmarshal (fun _ => .ok (utf8 helloWorldSrt)) "input.json"
        "output.srt" staleFiles).2 "output.srt" ≠ some (Node.file (utf8 helloWorldSrt)) ∧
    (WriteFile staleFiles "output.srt" (utf8 helloWorldSrt)).2 "output.srt" =
      some (Node.file (utf8 helloWorldSrt)) := by
  have h := json2srt_overwrites helloWorldUnmarshal (fun _ => .ok (utf8 helloWorldSrt))
    "input.json" "output.srt" staleFiles (utf8 helloWorldJson) (utf8 helloWorldSrt) _
    helloWorldDoc (by decide) (if_pos rfl) rfl (FileSystem.put_same _ _ _)
  have hw := WriteFile_replaces staleFiles "output.srt" (utf8 helloWorldSrt) _
    (FileSystem.put_same _ _ _)
  rw [h, hw]
  refine ⟨rfl, ?_, ?_, ?_⟩
  · show (staleFiles.put "output.srt" _) "output.srt" = _
    rw [FileSystem.put_same]
    decide
  · show (staleFiles.put "output.srt" _) "output.srt" ≠ _
    rw [FileSystem.put_same]
    decide
  · show (staleFiles.put "output.srt" _) "output.srt" = _
    exact FileSystem.put_same _ _ _

/-! ## The round trip SRT to JSON to SRT -/

end Json2Srt
